import Mathlib

/-!
# Verification of the TICMeter Linky historical-mode decoder

Shallow embedding of `src/esp32/main/linky.cpp` (`Linky::checksum`,
`Linky::decode`).  Bytes are modelled as `Nat` (a buffer is a `List Nat`);
C unsigned-int arithmetic is modelled with explicit `% 2^32`; the fallible
decode returns its status byte (`1`/`0`) together with the decoded record.

The protocol constants live in `linky.h`, which is not part of `src/`.
They are modelled from the spec (§8 of the design document: the canonical
historical-mode delimiter set STX/ETX for the frame, LF/CR for groups and
the space byte as separator, with a 200-byte frame buffer matching the
local array `char frame[200]` of `linky.cpp`).
-/

/-- Modelled from the spec: start-of-frame marker from the missing
`linky.h` (canonical historical-mode value STX = 0x02). -/
def START_OF_FRAME : Nat := 0x02

/-- Modelled from the spec: end-of-frame marker from the missing
`linky.h` (canonical historical-mode value ETX = 0x03). -/
def END_OF_FRAME : Nat := 0x03

/-- Modelled from the spec: start-of-group marker from the missing
`linky.h` (canonical historical-mode value LF = 0x0A). -/
def START_OF_GROUP : Nat := 0x0A

/-- Modelled from the spec: end-of-group marker from the missing
`linky.h` (canonical historical-mode value CR = 0x0D). -/
def END_OF_GROUP : Nat := 0x0D

/-- Modelled from the spec: field separator byte from the missing
`linky.h` (canonical historical-mode value 0x20, the space byte). -/
def GROUP_SEPARATOR : Nat := 0x20

/-- Size of the local frame buffer: `char frame[200]` in `Linky::decode`;
the scan bound `FRAME_SIZE` of the missing `linky.h` must equal it for the
code to be well defined. -/
def FRAME_SIZE : Nat := 200

/-- 2^32, the modulus of the target's `unsigned int` / `unsigned long`
arithmetic (the repository targets the 32-bit ESP32). -/
def U32 : Nat := 2 ^ 32

/-- `unsigned long` maximum on the 32-bit target (`strtoul` clamps here). -/
def ULONG_MAX : Nat := U32 - 1

/-- C `unsigned int` subtraction `a - b` for `a b < 2^32` (wraps around). -/
def usub (a b : Nat) : Nat := (a + U32 - b) % U32

/-- C-string reading of a zero-padded byte array: the bytes before the
first NUL.  Models `strlen`/`strcmp`/`strcpy`/`strtoul` access to the
stack arrays `label`, `value` of `Linky::decode`. -/
def cstr (s : List Nat) : List Nat := s.takeWhile (fun b => b ≠ 0)

/-- Sum of the byte values of a string (the accumulator `S1` of
`Linky::checksum`).  On the target the `char` values are summed as `int`;
signedness of `char` is irrelevant because the result is only used modulo
64 and a signed reading shifts each byte by a multiple of 256. -/
def sumBytes (s : List Nat) : Nat := s.foldl (· + ·) 0

/-- `Linky::checksum`: sum the bytes of the label (up to its NUL), add the
separator byte, add the bytes of the value; keep the low 6 bits and add
0x20. -/
def checksum (label dataV : List Nat) : Nat :=
  ((sumBytes (cstr label) + GROUP_SEPARATOR + sumBytes (cstr dataV)) &&& 0x3F) + 0x20

/-- ASCII decimal digit test, as used by `strtoul`. -/
def isDigitB (b : Nat) : Bool := 48 ≤ b && b ≤ 57

/-- C-locale `isspace` test, as used by `strtoul` (space and 0x09–0x0D). -/
def isSpaceB (b : Nat) : Bool := b = 32 || (9 ≤ b && b ≤ 13)

/-- Accumulating base-10 digit parse: consume the longest leading digit
run, stopping at the first non-digit byte. -/
def digitsAcc : List Nat → Nat → Nat
  | [], acc => acc
  | b :: rest, acc => if isDigitB b then digitsAcc rest (acc * 10 + (b - 48)) else acc

/-- `strtoul(value, NULL, 10)` on the 32-bit target (newlib): skip leading
whitespace, accept one optional sign, parse the longest digit run; clamp
to `ULONG_MAX` on overflow, otherwise negate modulo 2^32 when the sign was
a minus.  No digits gives 0. -/
def strtoul10 (s : List Nat) : Nat :=
  let t := s.dropWhile (fun b => isSpaceB b)
  let t2 := if t.headD 0 = 45 ∨ t.headD 0 = 43 then t.tail else t
  let v := digitsAcc t2 0
  if ULONG_MAX < v then ULONG_MAX
  else if t.headD 0 = 45 then (U32 - v) % U32
  else v

/-- Modelled from the spec: the output record (`data`, of the struct type
declared in the missing `linky.h`).  Numeric slots hold the `strtoul`
result, string slots hold the bytes copied by `strcpy` (§3 MeterRecord of
the design document). -/
structure MeterRecord where
  ADCO : Nat
  OPTARIF : List Nat
  ISOUSC : Nat
  BASE : Nat
  HCHC : Nat
  HCHP : Nat
  PTEC : List Nat
  IINST : Nat
  IMAX : Nat
  PAPP : Nat
  HHPHC : List Nat
  MOTDETAT : List Nat
  deriving Repr, DecidableEq

/-- `data = {0}`: every numeric slot zero, every string slot empty. -/
def resetRecord : MeterRecord := ⟨0, [], 0, 0, 0, 0, [], 0, 0, 0, [], []⟩

/-- ASCII bytes of the label `ADCO`. -/
def lADCO : List Nat := [65, 68, 67, 79]
/-- ASCII bytes of the label `OPTARIF`. -/
def lOPTARIF : List Nat := [79, 80, 84, 65, 82, 73, 70]
/-- ASCII bytes of the label `ISOUSC`. -/
def lISOUSC : List Nat := [73, 83, 79, 85, 83, 67]
/-- ASCII bytes of the label `BASE`. -/
def lBASE : List Nat := [66, 65, 83, 69]
/-- ASCII bytes of the label `HCHC`. -/
def lHCHC : List Nat := [72, 67, 72, 67]
/-- ASCII bytes of the label `HCHP`. -/
def lHCHP : List Nat := [72, 67, 72, 80]
/-- ASCII bytes of the label `PTEC`. -/
def lPTEC : List Nat := [80, 84, 69, 67]
/-- ASCII bytes of the label `IINST`. -/
def lIINST : List Nat := [73, 73, 78, 83, 84]
/-- ASCII bytes of the label `IMAX`. -/
def lIMAX : List Nat := [73, 77, 65, 88]
/-- ASCII bytes of the label `PAPP`. -/
def lPAPP : List Nat := [80, 65, 80, 80]
/-- ASCII bytes of the label `HHPHC`. -/
def lHHPHC : List Nat := [72, 72, 80, 72, 67]
/-- ASCII bytes of the label `MOTDETAT`. -/
def lMOTDETAT : List Nat := [77, 79, 84, 68, 69, 84, 65, 84]

/-- The fourth step of `Linky::decode`: the `strcmp` if/else-if chain
dispatching a validated label/value pair into the record. -/
def dispatch (rec : MeterRecord) (label value : List Nat) : MeterRecord :=
  if label = lADCO then { rec with ADCO := strtoul10 value }
  else if label = lOPTARIF then { rec with OPTARIF := value }
  else if label = lISOUSC then { rec with ISOUSC := strtoul10 value }
  else if label = lBASE then { rec with BASE := strtoul10 value }
  else if label = lHCHC then { rec with HCHC := strtoul10 value }
  else if label = lHCHP then { rec with HCHP := strtoul10 value }
  else if label = lPTEC then { rec with PTEC := value }
  else if label = lIINST then { rec with IINST := strtoul10 value }
  else if label = lIMAX then { rec with IMAX := strtoul10 value }
  else if label = lPAPP then { rec with PAPP := strtoul10 value }
  else if label = lHHPHC then { rec with HHPHC := value }
  else if label = lMOTDETAT then { rec with MOTDETAT := value }
  else rec

/-- First step of `Linky::decode`: scan for the frame boundaries.
`sof = none` models `startOfFrame == UINT_MAX` (the unsigned comparison
`i > startOfFrame` is then false); the scan overwrites the start index on
every start-marker sighting and breaks at the first qualifying end
marker.  `none` models the post-loop error check (an end marker was never
recorded). -/
def findFrameAux : List Nat → Nat → Option Nat → Option (Nat × Nat)
  | [], _, _ => none
  | b :: rest, i, none =>
    if b = START_OF_FRAME then findFrameAux rest (i + 1) (some i)
    else findFrameAux rest (i + 1) none
  | b :: rest, i, some s =>
    if b = START_OF_FRAME then findFrameAux rest (i + 1) (some i)
    else if b = END_OF_FRAME ∧ s < i then some (s, i)
    else findFrameAux rest (i + 1) (some s)

/-- Frame boundary search over the whole receive buffer (the source loop
runs over all `BUFFER_SIZE` bytes). -/
def findFrame (buffer : List Nat) : Option (Nat × Nat) :=
  findFrameAux buffer 0 none

/-- The local array `char frame[200] = {0}` after
`memcpy(frame, buffer + startOfFrame, endOfFrame - startOfFrame)`:
the extracted bytes padded with NULs to exactly `FRAME_SIZE` bytes. -/
def frame200 (raw : List Nat) : List Nat :=
  (raw ++ List.replicate FRAME_SIZE 0).take FRAME_SIZE

/-- Index-recording scan: the positions (offset by `i`) at which byte `c`
occurs, in order.  Models the `startOfGroup`/`endOfGroup`/`separatorIndex`
index arrays with their post-increment counters. -/
def indicesFrom (c : Nat) : List Nat → Nat → List Nat
  | [], _ => []
  | b :: rest, i =>
    if b = c then i :: indicesFrom c rest (i + 1) else indicesFrom c rest (i + 1)

/-- Separator positions inside one group: the source loops `j` from
`startOfGroup[i]` to `endOfGroup[i] - 1` over `frame[j]`. -/
def sepIndices (frame : List Nat) (s e : Nat) : List Nat :=
  indicesFrom GROUP_SEPARATOR ((frame.drop s).take (e - s)) s

/-- The byte count of the label `memcpy`:
`separatorIndex[0] - startOfGroup[i] - 1` in C unsigned arithmetic
(a missing separator leaves `separatorIndex[0] = 0` and the length
underflows). -/
def labelCopyLen (frame : List Nat) (s e : Nat) : Nat :=
  usub (usub ((sepIndices frame s e).getD 0 0) s) 1

/-- The byte count of the value `memcpy`:
`separatorIndex[1] - separatorIndex[0] - 1` in C unsigned arithmetic. -/
def valueCopyLen (frame : List Nat) (s e : Nat) : Nat :=
  usub (usub ((sepIndices frame s e).getD 1 0) ((sepIndices frame s e).getD 0 0)) 1

/-- The byte count of the checksum `memcpy`:
`endOfGroup[i] - separatorIndex[1] - 1` in C unsigned arithmetic. -/
def chkCopyLen (frame : List Nat) (s e : Nat) : Nat :=
  usub (usub e ((sepIndices frame s e).getD 1 0)) 1

/-- Third and fourth steps of `Linky::decode` for one group spanning
`[s, e]` of the frame: locate the separators, carve out label, value and
checksum byte, verify the checksum, and on success dispatch into the
record; on mismatch the record is returned unchanged. -/
def processGroup (frame : List Nat) (rec : MeterRecord) : Nat × Nat → MeterRecord
  | (s, e) =>
  let seps := sepIndices frame s e
  let sep0 := seps.getD 0 0
  let sep1 := seps.getD 1 0
  let label := cstr ((frame.drop (s + 1)).take (labelCopyLen frame s e))
  let value := cstr ((frame.drop (sep0 + 1)).take (valueCopyLen frame s e))
  let chk0 := if chkCopyLen frame s e = 0 then 0 else (frame.drop (sep1 + 1)).headD 0
  if checksum label value = chk0 then dispatch rec label value else rec

/-- `Linky::decode`.  `rxBytes` is the byte count reported by
`uart_read_bytes`; the source only logs it, so the scan always covers the
whole buffer.  Returns the status byte together with the record `data`
(cleared at the start of the cycle, hence equal to `resetRecord` on every
failure path). -/
def decode (rxBytes : Nat) (buffer : List Nat) : Nat × MeterRecord :=
  match findFrame buffer with
  | none => (0, resetRecord)
  | some (s, e) =>
    let frame := frame200 ((buffer.drop s).take (e - s))
    let startOfGroup := indicesFrom START_OF_GROUP frame 0
    let endOfGroup := indicesFrom END_OF_GROUP frame 0
    if startOfGroup = [] ∨ endOfGroup = [] then (0, resetRecord)
    else if startOfGroup.length ≠ endOfGroup.length then (0, resetRecord)
    else (1, (startOfGroup.zip endOfGroup).foldl (processGroup frame) resetRecord)

/-- The twelve labels recognised by the dispatch chain, in source order. -/
def knownLabels : List (List Nat) :=
  [lADCO, lOPTARIF, lISOUSC, lBASE, lHCHC, lHCHP, lPTEC, lIINST, lIMAX, lPAPP,
   lHHPHC, lMOTDETAT]

/-- The eight labels whose record slots are numeric (assigned from
`strtoul`). -/
def numericLabels : List (List Nat) :=
  [lADCO, lISOUSC, lBASE, lHCHC, lHCHP, lIINST, lIMAX, lPAPP]

/-- A record slot value, numeric or string, used to state the claims
uniformly over the twelve slots. -/
inductive SlotVal where
  | num : Nat → SlotVal
  | str : List Nat → SlotVal
  deriving Repr, DecidableEq

/-- Read the slot named by a known label (claims-side accessor). -/
def slotOf (rec : MeterRecord) (label : List Nat) : SlotVal :=
  if label = lADCO then .num rec.ADCO
  else if label = lOPTARIF then .str rec.OPTARIF
  else if label = lISOUSC then .num rec.ISOUSC
  else if label = lBASE then .num rec.BASE
  else if label = lHCHC then .num rec.HCHC
  else if label = lHCHP then .num rec.HCHP
  else if label = lPTEC then .str rec.PTEC
  else if label = lIINST then .num rec.IINST
  else if label = lIMAX then .num rec.IMAX
  else if label = lPAPP then .num rec.PAPP
  else if label = lHHPHC then .str rec.HHPHC
  else if label = lMOTDETAT then .str rec.MOTDETAT
  else .num 0

/-- The value `dispatch` stores for a known label. -/
def slotVal (label value : List Nat) : SlotVal :=
  if label ∈ numericLabels then .num (strtoul10 value) else .str value

/-- Builder for claim statements: one group as transmitted on the wire,
carrying an arbitrary checksum byte `c`. -/
def mkGroupC (l v : List Nat) (c : Nat) : List Nat :=
  START_OF_GROUP ::
    (l ++ GROUP_SEPARATOR :: (v ++ [GROUP_SEPARATOR, c, END_OF_GROUP]))

/-- Builder: frame body made of consecutive groups. -/
def mkBody (gs : List ((List Nat × List Nat) × Nat)) : List Nat :=
  (gs.map (fun g => mkGroupC g.1.1 g.1.2 g.2)).flatten

/-- Builder: a buffer holding exactly one frame. -/
def mkBuffer (gs : List ((List Nat × List Nat) × Nat)) : List Nat :=
  START_OF_FRAME :: (mkBody gs ++ [END_OF_FRAME])

/-- Builder: a one-frame buffer whose groups all carry the correct
checksum byte. -/
def mkBufferOk (gs : List (List Nat × List Nat)) : List Nat :=
  mkBuffer (gs.map (fun p => (p, checksum p.1 p.2)))

/-- A byte allowed inside a label or value text: not NUL and none of the
five protocol delimiter bytes. -/
def goodByte (b : Nat) : Prop :=
  b ≠ 0 ∧ b ≠ START_OF_FRAME ∧ b ≠ END_OF_FRAME ∧ b ≠ START_OF_GROUP ∧
    b ≠ END_OF_GROUP ∧ b ≠ GROUP_SEPARATOR

instance (b : Nat) : Decidable (goodByte b) := by unfold goodByte; infer_instance

/-- A checksum byte that does not collide with a delimiter byte (a
separator-valued checksum byte would put a third separator occurrence in
the group, which with few groups overflows the `separatorIndex` VLA of
the source). -/
def goodChk (c : Nat) : Prop :=
  c ≠ START_OF_FRAME ∧ c ≠ END_OF_FRAME ∧ c ≠ START_OF_GROUP ∧
    c ≠ END_OF_GROUP ∧ c ≠ GROUP_SEPARATOR

instance (c : Nat) : Decidable (goodChk c) := by unfold goodChk; infer_instance

/-- Well-formedness of one transmitted group as assumed by the claims
about valid frames: delimiter-free label and value, sizes that fit the
fixed destination arrays (beyond which the source `memcpy` overflows,
see C8), and a non-delimiter checksum byte. -/
def GoodGroup (g : (List Nat × List Nat) × Nat) : Prop :=
  (∀ b ∈ g.1.1, goodByte b) ∧ (∀ b ∈ g.1.2, goodByte b) ∧
    g.1.1.length ≤ 9 ∧ g.1.2.length ≤ 19 ∧ goodChk g.2

instance (g : (List Nat × List Nat) × Nat) : Decidable (GoodGroup g) := by
  unfold GoodGroup; infer_instance

/-- Length of one group on the wire. -/
def groupLen (g : (List Nat × List Nat) × Nat) : Nat :=
  g.1.1.length + g.1.2.length + 5

/-- The spans `(startOfGroup[i], endOfGroup[i])` of consecutive groups
laid out from offset `i`. -/
def spans : List ((List Nat × List Nat) × Nat) → Nat → List (Nat × Nat)
  | [], _ => []
  | g :: rest, i =>
    (i, i + g.1.1.length + g.1.2.length + 4) :: spans rest (i + groupLen g)

/-- One step of the per-group phase at the label/value level: dispatch
when the carried checksum byte matches, skip otherwise. -/
def stepG (rec : MeterRecord) (g : (List Nat × List Nat) × Nat) : MeterRecord :=
  if checksum g.1.1 g.1.2 = g.2 then dispatch rec g.1.1 g.1.2 else rec

/-- The frame contains the given groups laid out consecutively from
offset `i` (link between buffer layout and the per-group phase). -/
def FrameHasGroups (frame : List Nat) : Nat → List ((List Nat × List Nat) × Nat) → Prop
  | _, [] => True
  | i, g :: rest =>
    (frame.drop i).take (groupLen g) = mkGroupC g.1.1 g.1.2 g.2 ∧
      FrameHasGroups frame (i + groupLen g) rest

/-- Base-10 value of an ASCII digit string (claims-side notion of "the
base-10 unsigned value of the field text"). -/
def decNat (s : List Nat) : Nat := s.foldl (fun a b => a * 10 + (b - 48)) 0

/-- Helper for stating claims: no NUL byte, so C-string reading is the
identity. -/
theorem cstr_of_no_nul (s : List Nat) (h : ∀ b ∈ s, b ≠ 0) : cstr s = s := by
  induction s with
  | nil => rfl
  | cons a t ih =>
    have ha : a ≠ 0 := h a (by simp)
    have ht := ih (fun b hb => h b (by simp [hb]))
    simp only [cstr, List.takeWhile_cons] at ht ⊢
    simp [ha, ht]
    intro b hb
    exact h b (by simp [hb])

/-- Claim C1: for every NUL-free label string and value string the
checksum is the byte sum of the label, the separator byte and the value,
reduced to its low 6 bits, plus 0x20; in particular for label `ADCO` and
value `031258549200` (separator byte 0x20) it returns 0x3E. -/
theorem C1_checksum_spec :
    (∀ label value : List Nat, (∀ b ∈ label, b ≠ 0) → (∀ b ∈ value, b ≠ 0) →
      checksum label value =
        ((sumBytes label + GROUP_SEPARATOR + sumBytes value) &&& 0x3F) + 0x20) ∧
    checksum lADCO [48, 51, 49, 50, 53, 56, 53, 52, 57, 50, 48, 48] = 0x3E := by
  constructor
  · intro label value hl hv
    simp [checksum, cstr_of_no_nul label hl, cstr_of_no_nul value hv]
  · decide

/-- Witness for C1 at the concrete `ADCO` example of the spec. -/
theorem C1_checksum_witness :
    checksum lADCO [48, 51, 49, 50, 53, 56, 53, 52, 57, 50, 48, 48] =
      ((sumBytes lADCO + GROUP_SEPARATOR +
        sumBytes [48, 51, 49, 50, 53, 56, 53, 52, 57, 50, 48, 48]) &&& 0x3F) + 0x20 :=
  C1_checksum_spec.1 lADCO [48, 51, 49, 50, 53, 56, 53, 52, 57, 50, 48, 48]
    (by decide) (by decide)

/-- The frame scan never succeeds when the buffer has no start marker:
`startOfFrame` stays at `UINT_MAX`, so no end marker can qualify. -/
theorem findFrameAux_none_of_no_stx (l : List Nat) :
    ∀ i, (∀ b ∈ l, b ≠ START_OF_FRAME) → findFrameAux l i none = none := by
  induction l with
  | nil => intro i _; rfl
  | cons b rest ih =>
    intro i h
    have hb : b ≠ START_OF_FRAME := h b (by simp)
    simp only [findFrameAux, if_neg hb]
    exact ih (i + 1) (fun x hx => h x (by simp [hx]))

/-- The frame scan never succeeds when every end marker precedes every
start marker: any recorded start lies after all end markers. -/
theorem findFrameAux_none_of_etx_first (l : List Nat) :
    ∀ (buffer : List Nat) (i : Nat) (sof : Option Nat),
      buffer.drop i = l →
      (∀ s0, sof = some s0 → s0 < i ∧ buffer[s0]? = some START_OF_FRAME) →
      (∀ j k : Nat, buffer[j]? = some END_OF_FRAME → buffer[k]? = some START_OF_FRAME →
        j < k) →
      findFrameAux l i sof = none := by
  induction l with
  | nil => intro buffer i sof _ _ _; rfl
  | cons b rest ih =>
    intro buffer i sof hdrop hsof hH
    have hb : buffer[i]? = some b := by
      have h0 := List.getElem?_drop buffer i 0
      rw [hdrop] at h0
      simpa using h0.symm
    have hrest : buffer.drop (i + 1) = rest := by
      have h1 := List.drop_drop 1 i buffer
      rw [hdrop] at h1
      simpa using h1.symm
    cases sof with
    | none =>
      by_cases hb2 : b = START_OF_FRAME
      · simp only [findFrameAux, if_pos hb2]
        refine ih buffer (i + 1) (some i) hrest ?_ hH
        intro s0 hs0
        cases hs0
        exact ⟨Nat.lt_succ_self i, by rw [hb, hb2]⟩
      · simp only [findFrameAux, if_neg hb2]
        exact ih buffer (i + 1) none hrest (by simp) hH
    | some s0 =>
      obtain ⟨hs0i, hs0v⟩ := hsof s0 rfl
      by_cases hb2 : b = START_OF_FRAME
      · simp only [findFrameAux, if_pos hb2]
        refine ih buffer (i + 1) (some i) hrest ?_ hH
        intro s1 hs1
        cases hs1
        exact ⟨Nat.lt_succ_self i, by rw [hb, hb2]⟩
      · have hcond : ¬(b = END_OF_FRAME ∧ s0 < i) := by
          rintro ⟨hb3, -⟩
          have hETX : buffer[i]? = some END_OF_FRAME := by rw [hb, hb3]
          have := hH i s0 hETX hs0v
          omega
        simp only [findFrameAux, if_neg hb2, if_neg hcond]
        refine ih buffer (i + 1) (some s0) hrest ?_ hH
        intro s1 hs1
        cases hs1
        exact ⟨Nat.lt_succ_of_lt hs0i, hs0v⟩

/-- Claim C3: a buffer without any start-of-frame marker, or in which
every end-of-frame marker precedes every start-of-frame marker, makes
`decode` fail with the record left at its reset state. -/
theorem C3_frame_not_found (rx : Nat) (buffer : List Nat)
    (h : (∀ b ∈ buffer, b ≠ START_OF_FRAME) ∨
         (∀ j, j < buffer.length → ∀ k, k < buffer.length →
            buffer[j]? = some END_OF_FRAME → buffer[k]? = some START_OF_FRAME → j < k)) :
    decode rx buffer = (0, resetRecord) := by
  have hnone : findFrame buffer = none := by
    cases h with
    | inl h1 => exact findFrameAux_none_of_no_stx buffer 0 h1
    | inr h2 =>
      refine findFrameAux_none_of_etx_first buffer buffer 0 none (by simp) (by simp) ?_
      intro j k hj hk
      have hjl : j < buffer.length := by
        by_contra hc
        rw [List.getElem?_eq_none (by omega)] at hj
        exact Option.noConfusion hj
      have hkl : k < buffer.length := by
        by_contra hc
        rw [List.getElem?_eq_none (by omega)] at hk
        exact Option.noConfusion hk
      exact h2 j hjl k hkl hj hk
  unfold decode
  rw [hnone]

/-- Witness for C3: the two-byte buffer ETX,STX (end before start). -/
theorem C3_witness : decode 2 [END_OF_FRAME, START_OF_FRAME] = (0, resetRecord) :=
  C3_frame_not_found 2 [END_OF_FRAME, START_OF_FRAME] (Or.inr (by decide))

/-- Claim C5: when the extracted frame yields no group markers, or an
unequal number of start-of-group and end-of-group markers, the whole
cycle fails and the record is the reset record (no group processed). -/
theorem C5_group_scan_failure (rx : Nat) (buffer : List Nat) (s e : Nat)
    (hf : findFrame buffer = some (s, e))
    (hg : indicesFrom START_OF_GROUP (frame200 ((buffer.drop s).take (e - s))) 0 = [] ∨
          indicesFrom END_OF_GROUP (frame200 ((buffer.drop s).take (e - s))) 0 = [] ∨
          (indicesFrom START_OF_GROUP (frame200 ((buffer.drop s).take (e - s))) 0).length ≠
            (indicesFrom END_OF_GROUP (frame200 ((buffer.drop s).take (e - s))) 0).length) :
    decode rx buffer = (0, resetRecord) := by
  unfold decode
  rw [hf]
  rcases hg with h1 | h2 | h3
  · simp [h1]
  · simp [h2]
  · by_cases hse : indicesFrom START_OF_GROUP (frame200 ((buffer.drop s).take (e - s))) 0 = [] ∨
        indicesFrom END_OF_GROUP (frame200 ((buffer.drop s).take (e - s))) 0 = []
    · simp [hse]
    · simp [hse, h3]

/-- Witness for C5: a frame containing no group markers at all. -/
theorem C5_witness : decode 3 [START_OF_FRAME, 65, END_OF_FRAME] = (0, resetRecord) :=
  C5_group_scan_failure 3 [START_OF_FRAME, 65, END_OF_FRAME] 0 2 (by decide)
    (Or.inl (by decide))

/-- Invariant-carrying specification of the frame scan: a successful scan
returns the last start marker recorded before the first end marker that
follows some start marker. -/
theorem findFrameAux_spec (l : List Nat) :
    ∀ (buffer : List Nat) (i : Nat) (sof : Option Nat) (s e : Nat),
      buffer.drop i = l →
      (∀ s0, sof = some s0 → s0 < i ∧ buffer[s0]? = some START_OF_FRAME ∧
         ∀ j, s0 < j → j < i → buffer[j]? ≠ some START_OF_FRAME) →
      (sof = none → ∀ j, j < i → buffer[j]? ≠ some START_OF_FRAME) →
      (∀ j, j < i → buffer[j]? = some END_OF_FRAME →
         ∀ k, k < j → buffer[k]? ≠ some START_OF_FRAME) →
      findFrameAux l i sof = some (s, e) →
      buffer[s]? = some START_OF_FRAME ∧ buffer[e]? = some END_OF_FRAME ∧ s < e ∧
      (∀ j, s < j → j < e → buffer[j]? ≠ some START_OF_FRAME) ∧
      (∀ j, j < e → buffer[j]? = some END_OF_FRAME →
         ∀ k, k < j → buffer[k]? ≠ some START_OF_FRAME) := by
  induction l with
  | nil =>
    intro buffer i sof s e _ _ _ _ hrun
    exact Option.noConfusion hrun
  | cons b rest ih =>
    intro buffer i sof s e hdrop hsof hnone hq hrun
    have hb : buffer[i]? = some b := by
      have h0 := List.getElem?_drop buffer i 0
      rw [hdrop] at h0
      simpa using h0.symm
    have hrest : buffer.drop (i + 1) = rest := by
      have h1 := List.drop_drop 1 i buffer
      rw [hdrop] at h1
      simpa using h1.symm
    cases sof with
    | none =>
      by_cases hb2 : b = START_OF_FRAME
      · simp only [findFrameAux, if_pos hb2] at hrun
        refine ih buffer (i + 1) (some i) s e hrest ?_ (by simp) ?_ hrun
        · intro s0 hs0
          cases hs0
          refine ⟨Nat.lt_succ_self i, by rw [hb, hb2], ?_⟩
          intro j hj1 hj2
          omega
        · intro j hj hETX k hk
          rcases Nat.lt_succ_iff_lt_or_eq.mp hj with hj' | rfl
          · exact hq j hj' hETX k hk
          · rw [hb] at hETX
            have hbe : b = END_OF_FRAME := Option.some.inj hETX
            rw [hb2] at hbe
            exact absurd hbe (by decide)
      · simp only [findFrameAux, if_neg hb2] at hrun
        refine ih buffer (i + 1) none s e hrest (by simp) ?_ ?_ hrun
        · intro _ j hj
          rcases Nat.lt_succ_iff_lt_or_eq.mp hj with hj' | rfl
          · exact hnone rfl j hj'
          · rw [hb]
            intro hcon
            exact hb2 (Option.some.inj hcon)
        · intro j hj hETX k hk
          rcases Nat.lt_succ_iff_lt_or_eq.mp hj with hj' | rfl
          · exact hq j hj' hETX k hk
          · exact hnone rfl k (by omega)
    | some s0 =>
      obtain ⟨hs0i, hs0v, hs0n⟩ := hsof s0 rfl
      by_cases hb2 : b = START_OF_FRAME
      · simp only [findFrameAux, if_pos hb2] at hrun
        refine ih buffer (i + 1) (some i) s e hrest ?_ (by simp) ?_ hrun
        · intro s1 hs1
          cases hs1
          refine ⟨Nat.lt_succ_self i, by rw [hb, hb2], ?_⟩
          intro j hj1 hj2
          omega
        · intro j hj hETX k hk
          rcases Nat.lt_succ_iff_lt_or_eq.mp hj with hj' | rfl
          · exact hq j hj' hETX k hk
          · rw [hb] at hETX
            have hbe : b = END_OF_FRAME := Option.some.inj hETX
            rw [hb2] at hbe
            exact absurd hbe (by decide)
      · by_cases hcond : b = END_OF_FRAME ∧ s0 < i
        · simp only [findFrameAux, if_neg hb2, if_pos hcond] at hrun
          obtain ⟨rfl, rfl⟩ : s0 = s ∧ i = e := by
            have h2 := Option.some.inj hrun
            exact ⟨congrArg Prod.fst h2, congrArg Prod.snd h2⟩
          refine ⟨hs0v, by rw [hb, hcond.1], hcond.2, hs0n, hq⟩
        · simp only [findFrameAux, if_neg hb2, if_neg hcond] at hrun
          have hbne3 : b ≠ END_OF_FRAME := fun hb3 => hcond ⟨hb3, hs0i⟩
          refine ih buffer (i + 1) (some s0) s e hrest ?_ (by simp) ?_ hrun
          · intro s1 hs1
            cases hs1
            refine ⟨Nat.lt_succ_of_lt hs0i, hs0v, ?_⟩
            intro j hj1 hj2
            rcases Nat.lt_succ_iff_lt_or_eq.mp hj2 with hj' | rfl
            · exact hs0n j hj1 hj'
            · rw [hb]
              intro hcon
              exact hb2 (Option.some.inj hcon)
          · intro j hj hETX k hk
            rcases Nat.lt_succ_iff_lt_or_eq.mp hj with hj' | rfl
            · exact hq j hj' hETX k hk
            · rw [hb] at hETX
              exact absurd (Option.some.inj hETX) hbne3

/-- Claim C6: whenever frame extraction succeeds, the extracted range
starts at the last start-of-frame index preceding the chosen end marker
(no further start marker lies strictly between them), and the end marker
is the first end-of-frame marker preceded by some start marker. -/
theorem C6_last_start_marker_wins (buffer : List Nat) (s e : Nat)
    (h : findFrame buffer = some (s, e)) :
    buffer[s]? = some START_OF_FRAME ∧ buffer[e]? = some END_OF_FRAME ∧ s < e ∧
    (∀ j, s < j → j < e → buffer[j]? ≠ some START_OF_FRAME) ∧
    (∀ j, j < e → buffer[j]? = some END_OF_FRAME →
       ∀ k, k < j → buffer[k]? ≠ some START_OF_FRAME) :=
  findFrameAux_spec buffer buffer 0 none s e (by simp)
    (fun s0 hs0 => Option.noConfusion hs0)
    (fun _ j hj => absurd hj (Nat.not_lt_zero j))
    (fun j hj => absurd hj (Nat.not_lt_zero j)) h

/-- Witness for C6: two start markers before the end marker; the frame
starts at the second one (index 2). -/
theorem C6_witness :
    [START_OF_FRAME, 0, START_OF_FRAME, 65, END_OF_FRAME][2]? = some START_OF_FRAME ∧
    [START_OF_FRAME, 0, START_OF_FRAME, 65, END_OF_FRAME][4]? = some END_OF_FRAME ∧
    2 < 4 ∧
    (∀ j, 2 < j → j < 4 →
      [START_OF_FRAME, 0, START_OF_FRAME, 65, END_OF_FRAME][j]? ≠ some START_OF_FRAME) ∧
    (∀ j, j < 4 →
      [START_OF_FRAME, 0, START_OF_FRAME, 65, END_OF_FRAME][j]? = some END_OF_FRAME →
      ∀ k, k < j →
        [START_OF_FRAME, 0, START_OF_FRAME, 65, END_OF_FRAME][k]? ≠ some START_OF_FRAME) :=
  C6_last_start_marker_wins [START_OF_FRAME, 0, START_OF_FRAME, 65, END_OF_FRAME] 2 4
    (by decide)

/-- C unsigned subtraction agrees with truncated subtraction when there
is no underflow. -/
theorem usub_of_le (a b : Nat) (hba : b ≤ a) (ha : a < U32) : usub a b = a - b := by
  unfold usub
  have h1 : a + U32 - b = U32 + (a - b) := by omega
  rw [h1, Nat.add_mod_left]
  exact Nat.mod_eq_of_lt (by omega)

/-- Step of the index scan over a non-matching head byte. -/
theorem indicesFrom_cons_ne (c x : Nat) (hx : x ≠ c) (t : List Nat) :
    ∀ i, indicesFrom c (x :: t) i = indicesFrom c t (i + 1) := by
  intro i
  simp [indicesFrom, hx]

/-- Step of the index scan over a matching head byte. -/
theorem indicesFrom_cons_eq (c : Nat) (t : List Nat) :
    ∀ i, indicesFrom c (c :: t) i = i :: indicesFrom c t (i + 1) := by
  intro i
  simp [indicesFrom]

/-- The index scan distributes over list append. -/
theorem indicesFrom_append (c : Nat) (a b : List Nat) :
    ∀ i, indicesFrom c (a ++ b) i = indicesFrom c a i ++ indicesFrom c b (i + a.length) := by
  induction a with
  | nil => intro i; simp [indicesFrom]
  | cons x t ih =>
    intro i
    have harith : i + 1 + t.length = i + (t.length + 1) := by omega
    rw [List.cons_append]
    by_cases hx : x = c
    · subst hx
      rw [indicesFrom_cons_eq, indicesFrom_cons_eq, ih (i + 1), List.length_cons, harith,
        List.cons_append]
    · rw [indicesFrom_cons_ne c x hx, indicesFrom_cons_ne c x hx, ih (i + 1),
        List.length_cons, harith]

/-- The index scan of a list that avoids `c` is empty. -/
theorem indicesFrom_nil_of (c : Nat) (l : List Nat) (h : ∀ b ∈ l, b ≠ c) :
    ∀ i, indicesFrom c l i = [] := by
  induction l with
  | nil => intro i; rfl
  | cons x t ih =>
    intro i
    have hx : x ≠ c := h x (by simp)
    rw [indicesFrom_cons_ne c x hx]
    exact ih (fun b hb => h b (by simp [hb])) (i + 1)

/-- Skipping a clean chunk shifts the scan offset by its length. -/
theorem indicesFrom_append_nil (c : Nat) (a b : List Nat) (ha : ∀ x ∈ a, x ≠ c) :
    ∀ i, indicesFrom c (a ++ b) i = indicesFrom c b (i + a.length) := by
  intro i
  rw [indicesFrom_append, indicesFrom_nil_of c a ha, List.nil_append]

/-- The padded frame array is the raw bytes followed by NUL padding. -/
theorem frame200_of_le (raw : List Nat) (h : raw.length ≤ FRAME_SIZE) :
    frame200 raw = raw ++ List.replicate (FRAME_SIZE - raw.length) 0 := by
  unfold frame200
  rw [List.take_append_eq_append_take, List.take_of_length_le h, List.take_replicate]
  congr 2
  omega

/-- Zipping the two projections of a pair list recovers the list. -/
theorem zip_fst_snd {α β : Type} (L : List (α × β)) :
    (L.map Prod.fst).zip (L.map Prod.snd) = L := by
  induction L with
  | nil => rfl
  | cons a t ih => simp [ih]

/-- There are as many spans as groups. -/
theorem spans_length (gs : List ((List Nat × List Nat) × Nat)) :
    ∀ i, (spans gs i).length = gs.length := by
  induction gs with
  | nil => intro i; rfl
  | cons g t ih => intro i; simp [spans, ih]

/-- Wire length of one group. -/
theorem mkGroupC_length (l v : List Nat) (c : Nat) :
    (mkGroupC l v c).length = l.length + v.length + 5 := by
  simp [mkGroupC]
  omega

/-- The group-start scan of one well-formed group sees exactly the
leading LF. -/
theorem indicesFrom_mkGroupC_sog (l v : List Nat) (c : Nat)
    (hl : ∀ b ∈ l, goodByte b) (hv : ∀ b ∈ v, goodByte b) (hc : goodChk c) :
    ∀ i, indicesFrom START_OF_GROUP (mkGroupC l v c) i = [i] := by
  intro i
  unfold mkGroupC
  rw [indicesFrom_cons_eq,
    indicesFrom_append_nil _ l _ (fun x hx => (hl x hx).2.2.2.1),
    indicesFrom_cons_ne _ _ (by decide),
    indicesFrom_append_nil _ v _ (fun x hx => (hv x hx).2.2.2.1),
    indicesFrom_cons_ne _ _ (by decide),
    indicesFrom_cons_ne _ _ hc.2.2.1,
    indicesFrom_cons_ne _ _ (by decide)]
  rfl

/-- The group-end scan of one well-formed group sees exactly the final
CR. -/
theorem indicesFrom_mkGroupC_eog (l v : List Nat) (c : Nat)
    (hl : ∀ b ∈ l, goodByte b) (hv : ∀ b ∈ v, goodByte b) (hc : goodChk c) :
    ∀ i, indicesFrom END_OF_GROUP (mkGroupC l v c) i =
      [i + l.length + v.length + 4] := by
  intro i
  unfold mkGroupC
  rw [indicesFrom_cons_ne _ _ (by decide),
    indicesFrom_append_nil _ l _ (fun x hx => (hl x hx).2.2.2.2.1),
    indicesFrom_cons_ne _ _ (by decide),
    indicesFrom_append_nil _ v _ (fun x hx => (hv x hx).2.2.2.2.1),
    indicesFrom_cons_ne _ _ (by decide),
    indicesFrom_cons_ne _ _ hc.2.2.2.1,
    indicesFrom_cons_eq]
  have harith : i + 1 + l.length + 1 + v.length + 1 + 1 = i + l.length + v.length + 4 := by
    omega
  rw [show indicesFrom END_OF_GROUP [] (i + 1 + l.length + 1 + v.length + 1 + 1 + 1) = []
    from rfl]
  simp [harith]

/-- Separator scan over one group slice (without the final CR): exactly
the two transmitted separators. -/
theorem indicesFrom_groupA_sep (l v : List Nat) (c : Nat)
    (hl : ∀ b ∈ l, goodByte b) (hv : ∀ b ∈ v, goodByte b) (hc : goodChk c) :
    ∀ i, indicesFrom GROUP_SEPARATOR
        (START_OF_GROUP :: (l ++ GROUP_SEPARATOR :: (v ++ [GROUP_SEPARATOR, c]))) i =
      [i + l.length + 1, i + l.length + v.length + 2] := by
  intro i
  rw [indicesFrom_cons_ne _ _ (by decide),
    indicesFrom_append_nil _ l _ (fun x hx => (hl x hx).2.2.2.2.2),
    indicesFrom_cons_eq,
    indicesFrom_append_nil _ v _ (fun x hx => (hv x hx).2.2.2.2.2),
    indicesFrom_cons_eq,
    indicesFrom_cons_ne _ _ hc.2.2.2.2]
  simp only [indicesFrom, List.cons.injEq, and_true]
  omega

/-- Processing one well-formed group at span `(s, s + |l| + |v| + 4)`
carves out exactly the transmitted label, value and checksum byte, and
reduces to the label/value-level step `stepG`. -/
theorem processGroup_of_group (frame : List Nat) (rec : MeterRecord)
    (l v : List Nat) (c : Nat) (s : Nat)
    (hslice : (frame.drop s).take (l.length + v.length + 5) = mkGroupC l v c)
    (hl : ∀ b ∈ l, goodByte b) (hv : ∀ b ∈ v, goodByte b) (hc : goodChk c)
    (hfl : frame.length ≤ FRAME_SIZE) :
    processGroup frame rec (s, s + l.length + v.length + 4) = stepG rec ((l, v), c) := by
  have h32 : U32 = 4294967296 := by norm_num [U32]
  have hFS : FRAME_SIZE = 200 := rfl
  have hslen : l.length + v.length + 5 + s ≤ frame.length := by
    have hlen := congrArg List.length hslice
    rw [List.length_take, List.length_drop, mkGroupC_length] at hlen
    omega
  have hdecomp : frame.drop s =
      mkGroupC l v c ++ (frame.drop s).drop (l.length + v.length + 5) := by
    conv_lhs => rw [← List.take_append_drop (l.length + v.length + 5) (frame.drop s)]
    rw [hslice]
  obtain ⟨rest, hX⟩ : ∃ rest, frame.drop s =
      START_OF_GROUP ::
        ((l ++ GROUP_SEPARATOR :: (v ++ [GROUP_SEPARATOR, c, END_OF_GROUP])) ++ rest) := by
    refine ⟨(frame.drop s).drop (l.length + v.length + 5), ?_⟩
    conv_lhs => rw [hdecomp]
    rfl
  have hslice4 : (frame.drop s).take (l.length + v.length + 4) =
      START_OF_GROUP :: (l ++ GROUP_SEPARATOR :: (v ++ [GROUP_SEPARATOR, c])) := by
    have h1 : (frame.drop s).take (l.length + v.length + 4) =
        ((frame.drop s).take (l.length + v.length + 5)).take (l.length + v.length + 4) := by
      rw [List.take_take]
      congr 1
      omega
    rw [h1, hslice]
    have h2 : mkGroupC l v c =
        (START_OF_GROUP :: (l ++ GROUP_SEPARATOR :: (v ++ [GROUP_SEPARATOR, c])))
          ++ [END_OF_GROUP] := by
      simp [mkGroupC]
    rw [h2]
    exact List.take_left' (by simp; omega)
  have hseps : sepIndices frame s (s + l.length + v.length + 4) =
      [s + l.length + 1, s + l.length + v.length + 2] := by
    unfold sepIndices
    rw [show s + l.length + v.length + 4 - s = l.length + v.length + 4 from by omega,
      hslice4]
    exact indicesFrom_groupA_sep l v c hl hv hc s
  have hlabelLen : labelCopyLen frame s (s + l.length + v.length + 4) = l.length := by
    unfold labelCopyLen
    rw [hseps]
    rw [show ([s + l.length + 1, s + l.length + v.length + 2].getD 0 0) = s + l.length + 1
      from rfl]
    rw [usub_of_le (s + l.length + 1) s (by omega) (by omega),
      usub_of_le (s + l.length + 1 - s) 1 (by omega) (by omega)]
    omega
  have hvalueLen : valueCopyLen frame s (s + l.length + v.length + 4) = v.length := by
    unfold valueCopyLen
    rw [hseps]
    rw [show ([s + l.length + 1, s + l.length + v.length + 2].getD 1 0) =
      s + l.length + v.length + 2 from rfl]
    rw [show ([s + l.length + 1, s + l.length + v.length + 2].getD 0 0) = s + l.length + 1
      from rfl]
    rw [usub_of_le (s + l.length + v.length + 2) (s + l.length + 1) (by omega) (by omega),
      usub_of_le (s + l.length + v.length + 2 - (s + l.length + 1)) 1 (by omega) (by omega)]
    omega
  have hchkLen : chkCopyLen frame s (s + l.length + v.length + 4) = 1 := by
    unfold chkCopyLen
    rw [hseps]
    rw [show ([s + l.length + 1, s + l.length + v.length + 2].getD 1 0) =
      s + l.length + v.length + 2 from rfl]
    rw [usub_of_le (s + l.length + v.length + 4) (s + l.length + v.length + 2) (by omega)
        (by omega),
      usub_of_le (s + l.length + v.length + 4 - (s + l.length + v.length + 2)) 1 (by omega)
        (by omega)]
    omega
  have hlabel : (frame.drop (s + 1)).take l.length = l := by
    have hd : frame.drop (s + 1) = (frame.drop s).drop 1 := by
      rw [List.drop_drop]
    rw [hd, hX, List.drop_succ_cons, List.drop_zero, List.append_assoc]
    exact List.take_left' rfl
  have hvalue : (frame.drop (s + l.length + 1 + 1)).take v.length = v := by
    have hd : frame.drop (s + l.length + 1 + 1) = (frame.drop s).drop (l.length + 2) := by
      rw [show s + l.length + 1 + 1 = s + (l.length + 2) from by omega, ← List.drop_drop]
    rw [hd, hX]
    rw [show l.length + 2 = (l.length + 1) + 1 from by omega, List.drop_succ_cons]
    have hM : (l ++ GROUP_SEPARATOR :: (v ++ [GROUP_SEPARATOR, c, END_OF_GROUP])) ++ rest
        = (l ++ [GROUP_SEPARATOR]) ++
          ((v ++ [GROUP_SEPARATOR, c, END_OF_GROUP]) ++ rest) := by
      simp
    rw [hM, List.drop_left' (by simp), List.append_assoc]
    exact List.take_left' rfl
  have hchk : (frame.drop (s + l.length + v.length + 2 + 1)).headD 0 = c := by
    have hd : frame.drop (s + l.length + v.length + 2 + 1) =
        (frame.drop s).drop (l.length + v.length + 3) := by
      rw [show s + l.length + v.length + 2 + 1 = s + (l.length + v.length + 3) from by omega,
        ← List.drop_drop]
    rw [hd, hX]
    rw [show l.length + v.length + 3 = (l.length + v.length + 2) + 1 from by omega,
      List.drop_succ_cons]
    have hM : (l ++ GROUP_SEPARATOR :: (v ++ [GROUP_SEPARATOR, c, END_OF_GROUP])) ++ rest
        = (l ++ GROUP_SEPARATOR :: (v ++ [GROUP_SEPARATOR])) ++
          (c :: END_OF_GROUP :: rest) := by
      simp
    rw [hM, List.drop_left' (by simp; omega)]
    rfl
  simp only [processGroup]
  rw [hseps]
  simp only [List.getD_cons_zero, List.getD_cons_succ]
  rw [hlabelLen, hvalueLen, hchkLen, hlabel, hvalue, hchk,
    cstr_of_no_nul l (fun b hb => (hl b hb).1),
    cstr_of_no_nul v (fun b hb => (hv b hb).1)]
  simp [stepG]

/-- Laying out one more group prepends its bytes to the body. -/
theorem mkBody_cons (g : (List Nat × List Nat) × Nat)
    (t : List ((List Nat × List Nat) × Nat)) :
    mkBody (g :: t) = mkGroupC g.1.1 g.1.2 g.2 ++ mkBody t := by
  simp [mkBody]

/-- Group-start markers of a laid-out body sit exactly at the span
starts. -/
theorem indicesFrom_mkBody_sog (gs : List ((List Nat × List Nat) × Nat))
    (hg : ∀ g ∈ gs, GoodGroup g) :
    ∀ i, indicesFrom START_OF_GROUP (mkBody gs) i = (spans gs i).map Prod.fst := by
  induction gs with
  | nil => intro i; rfl
  | cons g t ih =>
    intro i
    obtain ⟨hl, hv, -, -, hc⟩ := hg g (by simp)
    rw [mkBody_cons, indicesFrom_append, indicesFrom_mkGroupC_sog g.1.1 g.1.2 g.2 hl hv hc,
      mkGroupC_length, ih (fun x hx => hg x (by simp [hx]))]
    simp [spans, groupLen]

/-- Group-end markers of a laid-out body sit exactly at the span ends. -/
theorem indicesFrom_mkBody_eog (gs : List ((List Nat × List Nat) × Nat))
    (hg : ∀ g ∈ gs, GoodGroup g) :
    ∀ i, indicesFrom END_OF_GROUP (mkBody gs) i = (spans gs i).map Prod.snd := by
  induction gs with
  | nil => intro i; rfl
  | cons g t ih =>
    intro i
    obtain ⟨hl, hv, -, -, hc⟩ := hg g (by simp)
    rw [mkBody_cons, indicesFrom_append, indicesFrom_mkGroupC_eog g.1.1 g.1.2 g.2 hl hv hc,
      mkGroupC_length, ih (fun x hx => hg x (by simp [hx]))]
    simp [spans, groupLen]

/-- A laid-out body never contains a frame marker. -/
theorem mkBody_not_frame_marker (gs : List ((List Nat × List Nat) × Nat))
    (hg : ∀ g ∈ gs, GoodGroup g) :
    ∀ b ∈ mkBody gs, b ≠ START_OF_FRAME ∧ b ≠ END_OF_FRAME := by
  intro b hb
  unfold mkBody at hb
  rw [List.mem_flatten] at hb
  obtain ⟨L, hL, hbL⟩ := hb
  rw [List.mem_map] at hL
  obtain ⟨g, hgm, rfl⟩ := hL
  obtain ⟨hl, hv, -, -, hc⟩ := hg g hgm
  simp only [mkGroupC, List.mem_cons, List.mem_append] at hbL
  rcases hbL with rfl | h | h
  · exact ⟨by decide, by decide⟩
  · exact ⟨(hl b h).2.1, (hl b h).2.2.1⟩
  · rcases h with rfl | h
    · exact ⟨by decide, by decide⟩
    · rcases h with h | h
      · exact ⟨(hv b h).2.1, (hv b h).2.2.1⟩
      · rcases h with rfl | h
        · exact ⟨by decide, by decide⟩
        · rcases h with rfl | h
          · exact ⟨hc.1, hc.2.1⟩
          · rcases h with rfl | h
            · exact ⟨by decide, by decide⟩
            · exact absurd h (List.not_mem_nil b)

/-- The frame scan skips over marker-free bytes once a start has been
recorded. -/
theorem findFrameAux_skip_clean (a : List Nat)
    (ha : ∀ b ∈ a, b ≠ START_OF_FRAME ∧ b ≠ END_OF_FRAME) :
    ∀ (r : List Nat) (i s : Nat),
      findFrameAux (a ++ r) i (some s) = findFrameAux r (i + a.length) (some s) := by
  induction a with
  | nil => intro r i s; simp
  | cons x t ih =>
    intro r i s
    obtain ⟨hx2, hx3⟩ := ha x (by simp)
    have hstep : findFrameAux ((x :: t) ++ r) i (some s) =
        findFrameAux (t ++ r) (i + 1) (some s) := by
      rw [List.cons_append]
      simp only [findFrameAux, if_neg hx2]
      rw [if_neg (fun hh => hx3 hh.1)]
    rw [hstep, ih (fun b hb => ha b (by simp [hb])) r (i + 1) s, List.length_cons,
      show i + 1 + t.length = i + (t.length + 1) from by omega]

/-- Frame extraction on a built one-frame buffer finds the whole frame:
start index 0, end index just past the body. -/
theorem findFrame_mkBuffer (gs : List ((List Nat × List Nat) × Nat))
    (hg : ∀ g ∈ gs, GoodGroup g) :
    findFrame (mkBuffer gs) = some (0, 1 + (mkBody gs).length) := by
  unfold findFrame mkBuffer
  have h0 : findFrameAux (START_OF_FRAME :: (mkBody gs ++ [END_OF_FRAME])) 0 none
      = findFrameAux (mkBody gs ++ [END_OF_FRAME]) 1 (some 0) := by
    simp [findFrameAux]
  rw [h0,
    findFrameAux_skip_clean (mkBody gs) (mkBody_not_frame_marker gs hg) [END_OF_FRAME] 1 0]
  have hpos : 0 < 1 + (mkBody gs).length := by omega
  have hne23 : ¬(END_OF_FRAME = START_OF_FRAME) := by decide
  simp [findFrameAux, hpos, hne23]

/-- A buffer of the shape `a ++ body ++ b` has the body groups laid out
from offset `|a|`. -/
theorem frameHasGroups_append (gs : List ((List Nat × List Nat) × Nat)) :
    ∀ (a b : List Nat) (i : Nat), a.length = i →
      FrameHasGroups (a ++ mkBody gs ++ b) i gs := by
  induction gs with
  | nil => intro a b i _; trivial
  | cons g t ih =>
    intro a b i hlen
    refine ⟨?_, ?_⟩
    · have hre : a ++ mkBody (g :: t) ++ b =
          a ++ (mkGroupC g.1.1 g.1.2 g.2 ++ (mkBody t ++ b)) := by
        rw [mkBody_cons]
        simp [List.append_assoc]
      rw [hre, List.drop_left' hlen,
        show groupLen g = (mkGroupC g.1.1 g.1.2 g.2).length from by
          rw [mkGroupC_length]; rfl]
      exact List.take_left _ _
    · have hre : a ++ mkBody (g :: t) ++ b =
          (a ++ mkGroupC g.1.1 g.1.2 g.2) ++ mkBody t ++ b := by
        rw [mkBody_cons]
        simp [List.append_assoc]
      rw [hre]
      refine ih (a ++ mkGroupC g.1.1 g.1.2 g.2) b (i + groupLen g) ?_
      rw [List.length_append, hlen, mkGroupC_length]
      rfl

/-- Folding the per-group phase over the spans of well-laid-out groups
equals the label/value-level fold. -/
theorem foldl_processGroup_spans (frame : List Nat) (hfl : frame.length ≤ FRAME_SIZE) :
    ∀ (gs : List ((List Nat × List Nat) × Nat)) (i : Nat) (rec : MeterRecord),
      FrameHasGroups frame i gs → (∀ g ∈ gs, GoodGroup g) →
      (spans gs i).foldl (processGroup frame) rec = gs.foldl stepG rec := by
  intro gs
  induction gs with
  | nil => intro i rec _ _; rfl
  | cons g t ih =>
    intro i rec hfg hg
    obtain ⟨⟨l, v⟩, c⟩ := g
    obtain ⟨hslice, htail⟩ := hfg
    obtain ⟨hl, hv, -, -, hc⟩ := hg ((l, v), c) (by simp)
    simp only [spans, List.foldl_cons]
    rw [processGroup_of_group frame rec l v c i hslice hl hv hc hfl]
    exact ih (i + groupLen ((l, v), c)) (stepG rec ((l, v), c)) htail
      (fun x hx => hg x (by simp [hx]))

/-- The padded frame always has exactly `FRAME_SIZE` bytes. -/
theorem frame200_length (raw : List Nat) : (frame200 raw).length = FRAME_SIZE := by
  simp [frame200]

/-- Reduction of `decode` once the frame boundaries are known. -/
theorem decode_some (rx : Nat) (buffer : List Nat) (s e : Nat)
    (hf : findFrame buffer = some (s, e)) :
    decode rx buffer =
      (if indicesFrom START_OF_GROUP (frame200 ((buffer.drop s).take (e - s))) 0 = [] ∨
          indicesFrom END_OF_GROUP (frame200 ((buffer.drop s).take (e - s))) 0 = []
       then (0, resetRecord)
       else if (indicesFrom START_OF_GROUP (frame200 ((buffer.drop s).take (e - s))) 0).length ≠
          (indicesFrom END_OF_GROUP (frame200 ((buffer.drop s).take (e - s))) 0).length
       then (0, resetRecord)
       else (1, ((indicesFrom START_OF_GROUP (frame200 ((buffer.drop s).take (e - s))) 0).zip
          (indicesFrom END_OF_GROUP (frame200 ((buffer.drop s).take (e - s))) 0)).foldl
          (processGroup (frame200 ((buffer.drop s).take (e - s)))) resetRecord)) := by
  unfold decode
  rw [hf]

/-- Master lemma: decoding a built one-frame buffer of well-formed groups
succeeds and equals the label/value-level fold of `stepG` over the
groups. -/
theorem decode_mkBuffer (rx : Nat) (gs : List ((List Nat × List Nat) × Nat))
    (hne : gs ≠ [])
    (hg : ∀ g ∈ gs, GoodGroup g)
    (hlen : (mkBuffer gs).length ≤ FRAME_SIZE + 1) :
    decode rx (mkBuffer gs) = (1, gs.foldl stepG resetRecord) := by
  have hblen : (mkBuffer gs).length = (mkBody gs).length + 2 := by
    simp [mkBuffer]
  have hbody200 : (mkBody gs).length + 1 ≤ FRAME_SIZE := by omega
  have hff := findFrame_mkBuffer gs hg
  rw [decode_some rx (mkBuffer gs) 0 (1 + (mkBody gs).length) hff]
  have hraw : ((mkBuffer gs).drop 0).take (1 + (mkBody gs).length - 0) =
      START_OF_FRAME :: mkBody gs := by
    rw [List.drop_zero, Nat.sub_zero]
    unfold mkBuffer
    rw [show START_OF_FRAME :: (mkBody gs ++ [END_OF_FRAME]) =
        (START_OF_FRAME :: mkBody gs) ++ [END_OF_FRAME] from rfl]
    exact List.take_left' (by simp; omega)
  rw [hraw]
  have hframe : frame200 (START_OF_FRAME :: mkBody gs) =
      [START_OF_FRAME] ++ mkBody gs ++
        List.replicate (FRAME_SIZE - ((mkBody gs).length + 1)) 0 := by
    rw [frame200_of_le _ (by simp; omega)]
    simp
  have hpad : ∀ b ∈ List.replicate (FRAME_SIZE - ((mkBody gs).length + 1)) 0,
      b ≠ START_OF_GROUP ∧ b ≠ END_OF_GROUP := by
    intro b hb
    rw [List.eq_of_mem_replicate hb]
    exact ⟨by decide, by decide⟩
  have hstarts : indicesFrom START_OF_GROUP (frame200 (START_OF_FRAME :: mkBody gs)) 0 =
      (spans gs 1).map Prod.fst := by
    rw [hframe, List.append_assoc,
      show ([START_OF_FRAME] ++ (mkBody gs ++ List.replicate
        (FRAME_SIZE - ((mkBody gs).length + 1)) 0)) = START_OF_FRAME ::
        (mkBody gs ++ List.replicate (FRAME_SIZE - ((mkBody gs).length + 1)) 0) from rfl,
      indicesFrom_cons_ne _ _ (by decide), indicesFrom_append,
      indicesFrom_nil_of _ _ (fun b hb => (hpad b hb).1), List.append_nil]
    exact indicesFrom_mkBody_sog gs hg 1
  have hends : indicesFrom END_OF_GROUP (frame200 (START_OF_FRAME :: mkBody gs)) 0 =
      (spans gs 1).map Prod.snd := by
    rw [hframe, List.append_assoc,
      show ([START_OF_FRAME] ++ (mkBody gs ++ List.replicate
        (FRAME_SIZE - ((mkBody gs).length + 1)) 0)) = START_OF_FRAME ::
        (mkBody gs ++ List.replicate (FRAME_SIZE - ((mkBody gs).length + 1)) 0) from rfl,
      indicesFrom_cons_ne _ _ (by decide), indicesFrom_append,
      indicesFrom_nil_of _ _ (fun b hb => (hpad b hb).2), List.append_nil]
    exact indicesFrom_mkBody_eog gs hg 1
  have hlenmap : ((spans gs 1).map Prod.fst).length = ((spans gs 1).map Prod.snd).length := by
    simp
  have hspne : spans gs 1 ≠ [] := by
    cases gs with
    | nil => exact absurd rfl hne
    | cons g t => simp [spans]
  have hstne : (spans gs 1).map Prod.fst ≠ [] := by
    intro hcon
    exact hspne (List.map_eq_nil_iff.mp hcon)
  have hendne : (spans gs 1).map Prod.snd ≠ [] := by
    intro hcon
    exact hspne (List.map_eq_nil_iff.mp hcon)
  rw [hstarts, hends]
  rw [if_neg (by simp [hstne, hendne]), if_neg (by simp [hlenmap]), zip_fst_snd]
  have hfhg : FrameHasGroups (frame200 (START_OF_FRAME :: mkBody gs)) 1 gs := by
    rw [hframe]
    exact frameHasGroups_append gs [START_OF_FRAME] _ 1 rfl
  rw [foldl_processGroup_spans (frame200 (START_OF_FRAME :: mkBody gs))
    (by rw [frame200_length]) gs 1 resetRecord hfhg hg]

/-- Every numeric label is a known label. -/
theorem mem_known_of_mem_numeric (l : List Nat) (h : l ∈ numericLabels) :
    l ∈ knownLabels := by
  fin_cases h <;> simp [knownLabels]

/-- Dispatching a known label stores exactly `slotVal` in its slot. -/
theorem slotOf_dispatch_self (rec : MeterRecord) (l v : List Nat)
    (h : l ∈ knownLabels) :
    slotOf (dispatch rec l v) l = slotVal l v := by
  fin_cases h <;>
    simp [dispatch, slotOf, slotVal, numericLabels, lADCO, lOPTARIF, lISOUSC, lBASE,
      lHCHC, lHCHP, lPTEC, lIINST, lIMAX, lPAPP, lHHPHC, lMOTDETAT]

/-- Dispatching a label other than `ADCO` leaves the `ADCO` slot alone. -/
theorem dispatch_ADCO_of_ne (rec : MeterRecord) (l' v : List Nat) (h : l' ≠ lADCO) :
    (dispatch rec l' v).ADCO = rec.ADCO := by
  simp only [dispatch, if_neg h, apply_ite MeterRecord.ADCO, ite_self]

/-- Dispatching a label other than `OPTARIF` leaves the `OPTARIF` slot alone. -/
theorem dispatch_OPTARIF_of_ne (rec : MeterRecord) (l' v : List Nat) (h : l' ≠ lOPTARIF) :
    (dispatch rec l' v).OPTARIF = rec.OPTARIF := by
  simp only [dispatch, if_neg h, apply_ite MeterRecord.OPTARIF, ite_self]

/-- Dispatching a label other than `ISOUSC` leaves the `ISOUSC` slot alone. -/
theorem dispatch_ISOUSC_of_ne (rec : MeterRecord) (l' v : List Nat) (h : l' ≠ lISOUSC) :
    (dispatch rec l' v).ISOUSC = rec.ISOUSC := by
  simp only [dispatch, if_neg h, apply_ite MeterRecord.ISOUSC, ite_self]

/-- Dispatching a label other than `BASE` leaves the `BASE` slot alone. -/
theorem dispatch_BASE_of_ne (rec : MeterRecord) (l' v : List Nat) (h : l' ≠ lBASE) :
    (dispatch rec l' v).BASE = rec.BASE := by
  simp only [dispatch, if_neg h, apply_ite MeterRecord.BASE, ite_self]

/-- Dispatching a label other than `HCHC` leaves the `HCHC` slot alone. -/
theorem dispatch_HCHC_of_ne (rec : MeterRecord) (l' v : List Nat) (h : l' ≠ lHCHC) :
    (dispatch rec l' v).HCHC = rec.HCHC := by
  simp only [dispatch, if_neg h, apply_ite MeterRecord.HCHC, ite_self]

/-- Dispatching a label other than `HCHP` leaves the `HCHP` slot alone. -/
theorem dispatch_HCHP_of_ne (rec : MeterRecord) (l' v : List Nat) (h : l' ≠ lHCHP) :
    (dispatch rec l' v).HCHP = rec.HCHP := by
  simp only [dispatch, if_neg h, apply_ite MeterRecord.HCHP, ite_self]

/-- Dispatching a label other than `PTEC` leaves the `PTEC` slot alone. -/
theorem dispatch_PTEC_of_ne (rec : MeterRecord) (l' v : List Nat) (h : l' ≠ lPTEC) :
    (dispatch rec l' v).PTEC = rec.PTEC := by
  simp only [dispatch, if_neg h, apply_ite MeterRecord.PTEC, ite_self]

/-- Dispatching a label other than `IINST` leaves the `IINST` slot alone. -/
theorem dispatch_IINST_of_ne (rec : MeterRecord) (l' v : List Nat) (h : l' ≠ lIINST) :
    (dispatch rec l' v).IINST = rec.IINST := by
  simp only [dispatch, if_neg h, apply_ite MeterRecord.IINST, ite_self]

/-- Dispatching a label other than `IMAX` leaves the `IMAX` slot alone. -/
theorem dispatch_IMAX_of_ne (rec : MeterRecord) (l' v : List Nat) (h : l' ≠ lIMAX) :
    (dispatch rec l' v).IMAX = rec.IMAX := by
  simp only [dispatch, if_neg h, apply_ite MeterRecord.IMAX, ite_self]

/-- Dispatching a label other than `PAPP` leaves the `PAPP` slot alone. -/
theorem dispatch_PAPP_of_ne (rec : MeterRecord) (l' v : List Nat) (h : l' ≠ lPAPP) :
    (dispatch rec l' v).PAPP = rec.PAPP := by
  simp only [dispatch, if_neg h, apply_ite MeterRecord.PAPP, ite_self]

/-- Dispatching a label other than `HHPHC` leaves the `HHPHC` slot alone. -/
theorem dispatch_HHPHC_of_ne (rec : MeterRecord) (l' v : List Nat) (h : l' ≠ lHHPHC) :
    (dispatch rec l' v).HHPHC = rec.HHPHC := by
  simp only [dispatch, if_neg h, apply_ite MeterRecord.HHPHC, ite_self]

/-- Dispatching a label other than `MOTDETAT` leaves the `MOTDETAT` slot alone. -/
theorem dispatch_MOTDETAT_of_ne (rec : MeterRecord) (l' v : List Nat) (h : l' ≠ lMOTDETAT) :
    (dispatch rec l' v).MOTDETAT = rec.MOTDETAT := by
  simp only [dispatch, if_neg h, apply_ite MeterRecord.MOTDETAT, ite_self]

/-- Reading the `ADCO` slot. -/
theorem slotOf_evalADCO (r : MeterRecord) : slotOf r lADCO = SlotVal.num r.ADCO := by
  simp [slotOf, lADCO, lOPTARIF, lISOUSC, lBASE, lHCHC, lHCHP, lPTEC, lIINST, lIMAX, lPAPP, lHHPHC, lMOTDETAT]

/-- Reading the `OPTARIF` slot. -/
theorem slotOf_evalOPTARIF (r : MeterRecord) : slotOf r lOPTARIF = SlotVal.str r.OPTARIF := by
  simp [slotOf, lADCO, lOPTARIF, lISOUSC, lBASE, lHCHC, lHCHP, lPTEC, lIINST, lIMAX, lPAPP, lHHPHC, lMOTDETAT]

/-- Reading the `ISOUSC` slot. -/
theorem slotOf_evalISOUSC (r : MeterRecord) : slotOf r lISOUSC = SlotVal.num r.ISOUSC := by
  simp [slotOf, lADCO, lOPTARIF, lISOUSC, lBASE, lHCHC, lHCHP, lPTEC, lIINST, lIMAX, lPAPP, lHHPHC, lMOTDETAT]

/-- Reading the `BASE` slot. -/
theorem slotOf_evalBASE (r : MeterRecord) : slotOf r lBASE = SlotVal.num r.BASE := by
  simp [slotOf, lADCO, lOPTARIF, lISOUSC, lBASE, lHCHC, lHCHP, lPTEC, lIINST, lIMAX, lPAPP, lHHPHC, lMOTDETAT]

/-- Reading the `HCHC` slot. -/
theorem slotOf_evalHCHC (r : MeterRecord) : slotOf r lHCHC = SlotVal.num r.HCHC := by
  simp [slotOf, lADCO, lOPTARIF, lISOUSC, lBASE, lHCHC, lHCHP, lPTEC, lIINST, lIMAX, lPAPP, lHHPHC, lMOTDETAT]

/-- Reading the `HCHP` slot. -/
theorem slotOf_evalHCHP (r : MeterRecord) : slotOf r lHCHP = SlotVal.num r.HCHP := by
  simp [slotOf, lADCO, lOPTARIF, lISOUSC, lBASE, lHCHC, lHCHP, lPTEC, lIINST, lIMAX, lPAPP, lHHPHC, lMOTDETAT]

/-- Reading the `PTEC` slot. -/
theorem slotOf_evalPTEC (r : MeterRecord) : slotOf r lPTEC = SlotVal.str r.PTEC := by
  simp [slotOf, lADCO, lOPTARIF, lISOUSC, lBASE, lHCHC, lHCHP, lPTEC, lIINST, lIMAX, lPAPP, lHHPHC, lMOTDETAT]

/-- Reading the `IINST` slot. -/
theorem slotOf_evalIINST (r : MeterRecord) : slotOf r lIINST = SlotVal.num r.IINST := by
  simp [slotOf, lADCO, lOPTARIF, lISOUSC, lBASE, lHCHC, lHCHP, lPTEC, lIINST, lIMAX, lPAPP, lHHPHC, lMOTDETAT]

/-- Reading the `IMAX` slot. -/
theorem slotOf_evalIMAX (r : MeterRecord) : slotOf r lIMAX = SlotVal.num r.IMAX := by
  simp [slotOf, lADCO, lOPTARIF, lISOUSC, lBASE, lHCHC, lHCHP, lPTEC, lIINST, lIMAX, lPAPP, lHHPHC, lMOTDETAT]

/-- Reading the `PAPP` slot. -/
theorem slotOf_evalPAPP (r : MeterRecord) : slotOf r lPAPP = SlotVal.num r.PAPP := by
  simp [slotOf, lADCO, lOPTARIF, lISOUSC, lBASE, lHCHC, lHCHP, lPTEC, lIINST, lIMAX, lPAPP, lHHPHC, lMOTDETAT]

/-- Reading the `HHPHC` slot. -/
theorem slotOf_evalHHPHC (r : MeterRecord) : slotOf r lHHPHC = SlotVal.str r.HHPHC := by
  simp [slotOf, lADCO, lOPTARIF, lISOUSC, lBASE, lHCHC, lHCHP, lPTEC, lIINST, lIMAX, lPAPP, lHHPHC, lMOTDETAT]

/-- Reading the `MOTDETAT` slot. -/
theorem slotOf_evalMOTDETAT (r : MeterRecord) : slotOf r lMOTDETAT = SlotVal.str r.MOTDETAT := by
  simp [slotOf, lADCO, lOPTARIF, lISOUSC, lBASE, lHCHC, lHCHP, lPTEC, lIINST, lIMAX, lPAPP, lHHPHC, lMOTDETAT]

/-- Dispatching any other label leaves a known label's slot unchanged. -/
theorem slotOf_dispatch_other (rec : MeterRecord) (l l' v : List Nat)
    (h : l ∈ knownLabels) (hne : l' ≠ l) :
    slotOf (dispatch rec l' v) l = slotOf rec l := by
  fin_cases h
  · rw [slotOf_evalADCO, slotOf_evalADCO, dispatch_ADCO_of_ne rec l' v hne]
  · rw [slotOf_evalOPTARIF, slotOf_evalOPTARIF, dispatch_OPTARIF_of_ne rec l' v hne]
  · rw [slotOf_evalISOUSC, slotOf_evalISOUSC, dispatch_ISOUSC_of_ne rec l' v hne]
  · rw [slotOf_evalBASE, slotOf_evalBASE, dispatch_BASE_of_ne rec l' v hne]
  · rw [slotOf_evalHCHC, slotOf_evalHCHC, dispatch_HCHC_of_ne rec l' v hne]
  · rw [slotOf_evalHCHP, slotOf_evalHCHP, dispatch_HCHP_of_ne rec l' v hne]
  · rw [slotOf_evalPTEC, slotOf_evalPTEC, dispatch_PTEC_of_ne rec l' v hne]
  · rw [slotOf_evalIINST, slotOf_evalIINST, dispatch_IINST_of_ne rec l' v hne]
  · rw [slotOf_evalIMAX, slotOf_evalIMAX, dispatch_IMAX_of_ne rec l' v hne]
  · rw [slotOf_evalPAPP, slotOf_evalPAPP, dispatch_PAPP_of_ne rec l' v hne]
  · rw [slotOf_evalHHPHC, slotOf_evalHHPHC, dispatch_HHPHC_of_ne rec l' v hne]
  · rw [slotOf_evalMOTDETAT, slotOf_evalMOTDETAT, dispatch_MOTDETAT_of_ne rec l' v hne]

/-- One per-group step for a different label leaves a known label's slot
unchanged. -/
theorem slotOf_stepG_other (rec : MeterRecord) (g : (List Nat × List Nat) × Nat)
    (l : List Nat) (h : l ∈ knownLabels) (hne : g.1.1 ≠ l) :
    slotOf (stepG rec g) l = slotOf rec l := by
  unfold stepG
  by_cases hcs : checksum g.1.1 g.1.2 = g.2
  · rw [if_pos hcs]
    exact slotOf_dispatch_other rec l g.1.1 g.1.2 h hne
  · rw [if_neg hcs]

/-- Folding groups that never carry label `l` leaves `l`'s slot alone. -/
theorem slotOf_foldl_untouched (gs : List ((List Nat × List Nat) × Nat)) :
    ∀ (rec : MeterRecord) (l : List Nat), l ∈ knownLabels →
      (∀ g ∈ gs, g.1.1 ≠ l) →
      slotOf (gs.foldl stepG rec) l = slotOf rec l := by
  induction gs with
  | nil => intro rec l _ _; rfl
  | cons g t ih =>
    intro rec l hk hne
    rw [List.foldl_cons, ih (stepG rec g) l hk (fun x hx => hne x (by simp [hx])),
      slotOf_stepG_other rec g l hk (hne g (by simp))]

/-- The slot of a group's label after folding all groups with pairwise
distinct labels: the dispatched value on checksum match, the incoming
value otherwise. -/
theorem slotOf_foldl_mem (gs : List ((List Nat × List Nat) × Nat)) :
    ∀ (rec : MeterRecord) (g0 : (List Nat × List Nat) × Nat),
      g0 ∈ gs → (gs.map (fun g => g.1.1)).Nodup → g0.1.1 ∈ knownLabels →
      slotOf (gs.foldl stepG rec) g0.1.1 =
        if checksum g0.1.1 g0.1.2 = g0.2 then slotVal g0.1.1 g0.1.2
        else slotOf rec g0.1.1 := by
  induction gs with
  | nil => intro rec g0 h _ _; exact absurd h (List.not_mem_nil g0)
  | cons g t ih =>
    intro rec g0 hmem hnd hk
    rw [List.foldl_cons]
    rw [List.map_cons, List.nodup_cons] at hnd
    rcases List.mem_cons.mp hmem with rfl | hmem'
    · have hothers : ∀ x ∈ t, x.1.1 ≠ g0.1.1 := by
        intro x hx hcon
        exact hnd.1 (by rw [← hcon]; exact List.mem_map_of_mem _ hx)
      rw [slotOf_foldl_untouched t (stepG rec g0) g0.1.1 hk hothers]
      unfold stepG
      by_cases hcs : checksum g0.1.1 g0.1.2 = g0.2
      · rw [if_pos hcs, if_pos hcs]
        exact slotOf_dispatch_self rec g0.1.1 g0.1.2 hk
      · rw [if_neg hcs, if_neg hcs]
    · have hheadne : g.1.1 ≠ g0.1.1 := by
        intro hcon
        exact hnd.1 (by rw [hcon]; exact List.mem_map_of_mem _ hmem')
      rw [ih (stepG rec g) g0 hmem' hnd.2 hk,
        slotOf_stepG_other rec g g0.1.1 hk hheadne]

/-- The digit accumulator consumes exactly the longest leading digit
run. -/
theorem digitsAcc_takeWhile (l : List Nat) :
    ∀ acc, digitsAcc l acc =
      (l.takeWhile (fun b => isDigitB b)).foldl (fun a b => a * 10 + (b - 48)) acc := by
  induction l with
  | nil => intro acc; rfl
  | cons x t ih =>
    intro acc
    by_cases hx : isDigitB x
    · simp [digitsAcc, hx, List.takeWhile_cons, ih]
    · simp [digitsAcc, hx, List.takeWhile_cons]

/-- Starting from zero, the digit accumulator is the base-10 value of the
longest leading digit run. -/
theorem digitsAcc_decNat (l : List Nat) :
    digitsAcc l 0 = decNat (l.takeWhile (fun b => isDigitB b)) :=
  digitsAcc_takeWhile l 0

/-- `strtoul` on an all-digit string whose value fits `unsigned long`
returns the base-10 value. -/
theorem strtoul10_digits (v : List Nat) (hd : ∀ b ∈ v, isDigitB b = true)
    (hb : decNat v ≤ ULONG_MAX) : strtoul10 v = decNat v := by
  cases v with
  | nil => rfl
  | cons x t =>
    have hx' : 48 ≤ x ∧ x ≤ 57 := by simpa [isDigitB] using hd x (by simp)
    have hxs : isSpaceB x = false := by
      simp [isSpaceB]
      omega
    have hdw : (x :: t).dropWhile (fun b => isSpaceB b) = x :: t := by
      simp [List.dropWhile_cons, hxs]
    have hno : ¬(x = 45 ∨ x = 43) := by omega
    have hno45 : ¬(x = 45) := by omega
    have hdac : digitsAcc (x :: t) 0 = decNat (x :: t) := by
      rw [digitsAcc_decNat, List.takeWhile_eq_self_iff.mpr hd]
    simp only [strtoul10]
    rw [hdw]
    simp only [List.headD_cons]
    rw [if_neg hno, hdac, if_neg (show ¬(ULONG_MAX < decNat (x :: t)) from by omega),
      if_neg hno45]

/-- `strtoul` on a string that begins with neither whitespace nor a sign
returns the base-10 value of the longest leading digit run, clamped to
`ULONG_MAX`. -/
theorem strtoul10_no_sign (v : List Nat)
    (hh : ∀ b, v.head? = some b → isSpaceB b = false ∧ b ≠ 45 ∧ b ≠ 43) :
    strtoul10 v = min (decNat (v.takeWhile (fun b => isDigitB b))) ULONG_MAX := by
  cases v with
  | nil =>
    show (0 : Nat) = min (decNat []) ULONG_MAX
    have : decNat [] = 0 := rfl
    rw [this]
    simp
  | cons x t =>
    obtain ⟨hxs, h45, h43⟩ := hh x rfl
    have hdw : (x :: t).dropWhile (fun b => isSpaceB b) = x :: t := by
      simp [List.dropWhile_cons, hxs]
    have hno : ¬(x = 45 ∨ x = 43) := by tauto
    simp only [strtoul10]
    rw [hdw]
    simp only [List.headD_cons]
    rw [if_neg hno, digitsAcc_decNat, if_neg h45]
    rw [Nat.min_def]
    split_ifs <;> omega

/-- Counterexample to claim C2 as stated: a checksum-valid `ADCO` group
carrying the spec's own 12-digit example value decodes successfully, but
the numeric slot holds the `strtoul` clamp value 2^32 − 1, not the
base-10 value 31258549200 of the field text. -/
theorem C2_counterexample :
    (decode 22 (mkBufferOk [(lADCO, [48, 51, 49, 50, 53, 56, 53, 52, 57, 50, 48, 48])])).1
      = 1 ∧
    (decode 22 (mkBufferOk [(lADCO, [48, 51, 49, 50, 53, 56, 53, 52, 57, 50, 48, 48])])).2.ADCO
      = 4294967295 ∧
    decNat [48, 51, 49, 50, 53, 56, 53, 52, 57, 50, 48, 48] = 31258549200 ∧
    (4294967295 : Nat) ≠ 31258549200 := by
  refine ⟨by decide, by decide, by decide, by decide⟩

/-- Claim C2 (amended): for a buffer with one frame of well-formed,
checksum-valid groups carrying distinct known labels, decode succeeds and
every slot matches the parsed value — numeric slots equal the base-10
value of the (all-digit) field text provided it is below 2^32, string
slots equal the field text verbatim. -/
theorem C2_valid_frame_decode (rx : Nat) (gs : List (List Nat × List Nat))
    (hne : gs ≠ [])
    (hgood : ∀ p ∈ gs, GoodGroup (p, checksum p.1 p.2))
    (hknown : ∀ p ∈ gs, p.1 ∈ knownLabels)
    (hnodup : (gs.map (fun p => p.1)).Nodup)
    (hnum : ∀ p ∈ gs, p.1 ∈ numericLabels →
      (∀ b ∈ p.2, isDigitB b = true) ∧ decNat p.2 < U32)
    (hlen : (mkBufferOk gs).length ≤ FRAME_SIZE + 1) :
    (decode rx (mkBufferOk gs)).1 = 1 ∧
    ∀ p ∈ gs, slotOf (decode rx (mkBufferOk gs)).2 p.1 =
      if p.1 ∈ numericLabels then SlotVal.num (decNat p.2) else SlotVal.str p.2 := by
  have hags : ∀ g ∈ gs.map (fun p => (p, checksum p.1 p.2)), GoodGroup g := by
    intro g hg
    rw [List.mem_map] at hg
    obtain ⟨p, hp, rfl⟩ := hg
    exact hgood p hp
  have hne' : gs.map (fun p => (p, checksum p.1 p.2)) ≠ [] := by
    intro hcon
    exact hne (List.map_eq_nil_iff.mp hcon)
  rw [show mkBufferOk gs = mkBuffer (gs.map (fun p => (p, checksum p.1 p.2))) from rfl,
    decode_mkBuffer rx (gs.map (fun p => (p, checksum p.1 p.2))) hne' hags hlen]
  refine ⟨rfl, ?_⟩
  intro p hp
  have hmem : (p, checksum p.1 p.2) ∈ gs.map (fun q => (q, checksum q.1 q.2)) :=
    List.mem_map_of_mem _ hp
  have hnd : ((gs.map (fun q => (q, checksum q.1 q.2))).map (fun g => g.1.1)).Nodup := by
    rw [List.map_map]
    simpa using hnodup
  have hslot := slotOf_foldl_mem (gs.map (fun q => (q, checksum q.1 q.2))) resetRecord
    (p, checksum p.1 p.2) hmem hnd (hknown p hp)
  rw [if_pos rfl] at hslot
  rw [hslot]
  unfold slotVal
  by_cases hnumm : p.1 ∈ numericLabels
  · rw [if_pos hnumm, if_pos hnumm]
    obtain ⟨hd, hb⟩ := hnum p hp hnumm
    rw [strtoul10_digits p.2 hd (by rw [show ULONG_MAX = U32 - 1 from rfl]; omega)]
  · rw [if_neg hnumm, if_neg hnumm]

/-- Witness for C2 at a concrete two-group frame: `BASE`/`9` (numeric) and
`OPTARIF`/`BASE` (string). -/
theorem C2_witness :
    (decode 22 (mkBufferOk [(lBASE, [57]), (lOPTARIF, [66, 65, 83, 69])])).1 = 1 ∧
    ∀ p ∈ [(lBASE, [57]), (lOPTARIF, ([66, 65, 83, 69] : List Nat))],
      slotOf (decode 22 (mkBufferOk [(lBASE, [57]), (lOPTARIF, [66, 65, 83, 69])])).2 p.1 =
        if p.1 ∈ numericLabels then SlotVal.num (decNat p.2) else SlotVal.str p.2 :=
  C2_valid_frame_decode 22 [(lBASE, [57]), (lOPTARIF, [66, 65, 83, 69])]
    (by decide) (by decide) (by decide) (by decide) (by decide) (by decide)

/-- Counterexample to claim C4 as stated: with one corrupted-checksum
`IINST` group and one valid `ADCO` group carrying the 12-digit meter
identifier, decode succeeds and the corrupted slot stays reset, but the
"other" slot is not populated with the base-10 value of its text (it is
clamped, see C2). -/
theorem C4_counterexample :
    (decode 40 (mkBuffer [((lIINST, [53]), 61),
      ((lADCO, [48, 51, 49, 50, 53, 56, 53, 52, 57, 50, 48, 48]),
        checksum lADCO [48, 51, 49, 50, 53, 56, 53, 52, 57, 50, 48, 48])])).1 = 1 ∧
    (decode 40 (mkBuffer [((lIINST, [53]), 61),
      ((lADCO, [48, 51, 49, 50, 53, 56, 53, 52, 57, 50, 48, 48]),
        checksum lADCO [48, 51, 49, 50, 53, 56, 53, 52, 57, 50, 48, 48])])).2.IINST = 0 ∧
    (decode 40 (mkBuffer [((lIINST, [53]), 61),
      ((lADCO, [48, 51, 49, 50, 53, 56, 53, 52, 57, 50, 48, 48]),
        checksum lADCO [48, 51, 49, 50, 53, 56, 53, 52, 57, 50, 48, 48])])).2.ADCO
      = 4294967295 ∧
    (4294967295 : Nat) ≠ decNat [48, 51, 49, 50, 53, 56, 53, 52, 57, 50, 48, 48] := by
  refine ⟨by decide, by decide, by decide, by decide⟩

/-- Claim C4 (amended): if exactly one group of an otherwise valid frame
carries a corrupted checksum byte, decode still succeeds, the corrupted
field's slot stays at the reset value, and every other slot is populated
per the (clamped) strtoul semantics of C2's amendment. -/
theorem C4_corrupted_group_skipped (rx : Nat) (gs : List ((List Nat × List Nat) × Nat))
    (g0 : (List Nat × List Nat) × Nat)
    (hmem : g0 ∈ gs) (hbad : checksum g0.1.1 g0.1.2 ≠ g0.2)
    (hval : ∀ g ∈ gs, g ≠ g0 → g.2 = checksum g.1.1 g.1.2)
    (hgood : ∀ g ∈ gs, GoodGroup g)
    (hknown : ∀ g ∈ gs, g.1.1 ∈ knownLabels)
    (hnodup : (gs.map (fun g => g.1.1)).Nodup)
    (hnum : ∀ g ∈ gs, g ≠ g0 → g.1.1 ∈ numericLabels →
      (∀ b ∈ g.1.2, isDigitB b = true) ∧ decNat g.1.2 < U32)
    (hlen : (mkBuffer gs).length ≤ FRAME_SIZE + 1) :
    (decode rx (mkBuffer gs)).1 = 1 ∧
    slotOf (decode rx (mkBuffer gs)).2 g0.1.1 = slotOf resetRecord g0.1.1 ∧
    ∀ g ∈ gs, g ≠ g0 →
      slotOf (decode rx (mkBuffer gs)).2 g.1.1 =
        if g.1.1 ∈ numericLabels then SlotVal.num (decNat g.1.2)
        else SlotVal.str g.1.2 := by
  have hne : gs ≠ [] := by
    intro hcon
    rw [hcon] at hmem
    exact List.not_mem_nil g0 hmem
  rw [decode_mkBuffer rx gs hne hgood hlen]
  refine ⟨rfl, ?_, ?_⟩
  · have hslot := slotOf_foldl_mem gs resetRecord g0 hmem hnodup (hknown g0 hmem)
    rw [if_neg hbad] at hslot
    exact hslot
  · intro g hg hne0
    have hslot := slotOf_foldl_mem gs resetRecord g hg hnodup (hknown g hg)
    rw [if_pos (hval g hg hne0).symm] at hslot
    rw [hslot]
    unfold slotVal
    by_cases hn : g.1.1 ∈ numericLabels
    · obtain ⟨hd, hb⟩ := hnum g hg hne0 hn
      rw [if_pos hn, if_pos hn,
        strtoul10_digits g.1.2 hd (by rw [show ULONG_MAX = U32 - 1 from rfl]; omega)]
    · rw [if_neg hn, if_neg hn]

/-- Witness for C4: corrupted `IINST` group followed by a valid `BASE`
group. -/
theorem C4_witness :
    (decode 20 (mkBuffer [((lIINST, [53]), 61),
      ((lBASE, [57]), checksum lBASE [57])])).1 = 1 ∧
    slotOf (decode 20 (mkBuffer [((lIINST, [53]), 61),
      ((lBASE, [57]), checksum lBASE [57])])).2 lIINST = slotOf resetRecord lIINST ∧
    ∀ g ∈ [((lIINST, [53]), 61),
        ((lBASE, ([57] : List Nat)), checksum lBASE [57])],
      g ≠ ((lIINST, [53]), 61) →
      slotOf (decode 20 (mkBuffer [((lIINST, [53]), 61),
        ((lBASE, [57]), checksum lBASE [57])])).2 g.1.1 =
        if g.1.1 ∈ numericLabels then SlotVal.num (decNat g.1.2)
        else SlotVal.str g.1.2 :=
  C4_corrupted_group_skipped 20
    [((lIINST, [53]), 61), ((lBASE, [57]), checksum lBASE [57])]
    ((lIINST, [53]), 61)
    (by decide) (by decide) (by decide) (by decide) (by decide) (by decide) (by decide)
    (by decide)

/-- Counterexample to claim C10 as stated: the checksum-valid field
`IINST`/`-5` has an empty longest leading digit run, so the claim says
the slot becomes 0; `strtoul` honours the minus sign and stores
2^32 − 5 instead. -/
theorem C10_counterexample :
    (decode 30 (mkBufferOk [(lIINST, [45, 53])])).1 = 1 ∧
    (decode 30 (mkBufferOk [(lIINST, [45, 53])])).2.IINST = 4294967291 ∧
    ([45, 53] : List Nat).takeWhile (fun b => isDigitB b) = [] ∧
    (4294967291 : Nat) ≠ 0 := by
  refine ⟨by decide, by decide, by decide, by decide⟩

/-- Claim C10 (amended): for a checksum-valid field with a numeric label
whose value text begins with neither whitespace nor a sign, the numeric
slot receives the base-10 value of the longest leading digit run, clamped
to 2^32 − 1; trailing non-digits are ignored and an empty run yields 0. -/
theorem C10_numeric_parse (rx : Nat) (l v : List Nat)
    (hl : l ∈ numericLabels)
    (hgood : GoodGroup ((l, v), checksum l v))
    (hhead : ∀ b, v.head? = some b → isSpaceB b = false ∧ b ≠ 45 ∧ b ≠ 43)
    (hlen : (mkBufferOk [(l, v)]).length ≤ FRAME_SIZE + 1) :
    (decode rx (mkBufferOk [(l, v)])).1 = 1 ∧
    slotOf (decode rx (mkBufferOk [(l, v)])).2 l =
      SlotVal.num (min (decNat (v.takeWhile (fun b => isDigitB b))) ULONG_MAX) := by
  rw [show mkBufferOk [(l, v)] = mkBuffer [((l, v), checksum l v)] from rfl,
    decode_mkBuffer rx [((l, v), checksum l v)] (by simp) (by simpa using hgood) hlen]
  refine ⟨rfl, ?_⟩
  have hk := mem_known_of_mem_numeric l hl
  have hslot := slotOf_foldl_mem [((l, v), checksum l v)] resetRecord
    ((l, v), checksum l v) (by simp) (by simp) hk
  rw [if_pos rfl] at hslot
  rw [hslot]
  unfold slotVal
  rw [if_pos hl, strtoul10_no_sign v hhead]

/-- Witness for C10: `IINST`/`12A3` stores 12 (longest leading digit run),
ignoring the trailing `A3`. -/
theorem C10_witness :
    (decode 7 (mkBufferOk [(lIINST, [49, 50, 65, 51])])).1 = 1 ∧
    slotOf (decode 7 (mkBufferOk [(lIINST, [49, 50, 65, 51])])).2 lIINST =
      SlotVal.num (min (decNat (([49, 50, 65, 51] : List Nat).takeWhile
        (fun b => isDigitB b))) ULONG_MAX) :=
  C10_numeric_parse 7 lIINST [49, 50, 65, 51] (by decide) (by decide)
    (by
      intro b hb
      rw [show ([49, 50, 65, 51] : List Nat).head? = some 49 from rfl] at hb
      cases Option.some.inj hb
      decide)
    (by decide)

/-- Claim C7: the source ignores the reported read count — two buffers
agreeing on all `rxBytes = 1` valid bytes decode differently because the
whole fixed buffer is scanned, stale bytes included. -/
theorem C7_stale_bytes_interpreted :
    (List.replicate 13 0).take 1 = ((0 : Nat) :: mkBufferOk [(lBASE, [57])]).take 1 ∧
    (List.replicate 13 0).length = ((0 : Nat) :: mkBufferOk [(lBASE, [57])]).length ∧
    decode 1 (List.replicate 13 0) ≠ decode 1 ((0 : Nat) :: mkBufferOk [(lBASE, [57])]) := by
  refine ⟨by decide, by decide, by decide⟩

/-- Claim C8: a 15-byte label in an otherwise well-formed group makes the
label `memcpy` length 15, exceeding the 10-byte destination array — the
copy is unbounded, not truncated to the maximum. -/
theorem C8_overlong_label_not_truncated :
    indicesFrom START_OF_GROUP (frame200 (START_OF_FRAME :: mkGroupC
      [65, 66, 67, 68, 69, 70, 71, 72, 73, 74, 75, 76, 77, 78, 79] [49] 61)) 0 = [1] ∧
    indicesFrom END_OF_GROUP (frame200 (START_OF_FRAME :: mkGroupC
      [65, 66, 67, 68, 69, 70, 71, 72, 73, 74, 75, 76, 77, 78, 79] [49] 61)) 0 = [21] ∧
    labelCopyLen (frame200 (START_OF_FRAME :: mkGroupC
      [65, 66, 67, 68, 69, 70, 71, 72, 73, 74, 75, 76, 77, 78, 79] [49] 61)) 1 21 = 15 ∧
    ¬(15 ≤ 9) := by
  refine ⟨by decide, by decide, by decide, by decide⟩

/-- Claim C9: a group with no separator leaves `separatorIndex` zeroed,
so the label copy length underflows to 2^32 − 2 — the field is not
skipped; the `memcpy` is wildly out of bounds. -/
theorem C9_malformed_group_underflow :
    indicesFrom START_OF_GROUP
      (frame200 [START_OF_FRAME, START_OF_GROUP, 65, 68, 67, 79, END_OF_GROUP]) 0 = [1] ∧
    indicesFrom END_OF_GROUP
      (frame200 [START_OF_FRAME, START_OF_GROUP, 65, 68, 67, 79, END_OF_GROUP]) 0 = [6] ∧
    sepIndices
      (frame200 [START_OF_FRAME, START_OF_GROUP, 65, 68, 67, 79, END_OF_GROUP]) 1 6 = [] ∧
    labelCopyLen
      (frame200 [START_OF_FRAME, START_OF_GROUP, 65, 68, 67, 79, END_OF_GROUP]) 1 6 =
      4294967294 ∧
    FRAME_SIZE < 4294967294 := by
  refine ⟨by decide, by decide, by decide, by decide, by decide⟩
